import Mathlib

/-!
Shallow embedding of the CloudEats order service
(src/services/order-service/src/server.js).

The service keeps one ephemeral shopping cart per user in a key-value
cache (Redis, keyed by a string derived from the user id) and durable
orders in a document store (MongoDB).  Request handlers are sequential
read-modify-write cycles; we embed each route as a pure Lean function
threading the cache and the order list explicitly.

Modelling conventions:
 - JavaScript request-body values that may be either numbers or strings
   (notably `itemId`, which is stored unconverted by the add-item route
   but parsed with `parseInt` by the update route) are modelled by `JVal`.
 - JS numbers in cart arithmetic are modelled by `Int`.
 - `parseInt` is modelled by `parseIntJS : String → Option Int`, `none`
   standing for `NaN`; a strict-equality comparison against `NaN` is
   always false, which `matchesParsedId` reproduces.
 - The Redis cache is a function from key strings to optional carts;
   the Mongo collection is a `List Order`.  `insertOne` appends and
   assigns a fresh 24-hex-character identifier (`freshOid`); the
   `ObjectId` constructor's well-formedness check (it throws on a string
   that is not 24 hex characters, which the route's catch-all maps to
   HTTP 500) is modelled by `isValidObjectId`.
 - A route's error responses are `Except` errors; the HTTP status each
   error is sent with is given by the `...Status` functions.
-/

/-- A JavaScript value appearing as an `itemId`: either a number or a
string.  Strict equality `===` never identifies a number with a string. -/
inductive JVal where
  | num (n : Int)
  | str (s : String)
deriving DecidableEq, Repr

/-- True exactly on string-valued `JVal`s. -/
def isStrVal : JVal → Bool
  | .str _ => true
  | .num _ => false

/-- One entry of a cart, as stored by the add-item route:
`{ itemId, itemName, price, quantity }`. -/
structure CartItem where
  itemId : JVal
  itemName : String
  price : Int
  quantity : Int
deriving DecidableEq, Repr

/-- A cart as serialised into the cache: `{ items, total }`. -/
structure Cart where
  items : List CartItem
  total : Int
deriving DecidableEq, Repr

/-- The empty cart `{ items: [], total: 0 }` used on cache miss. -/
def emptyCart : Cart := ⟨[], 0⟩

/-- The key-value cache: cart JSON per key, `none` for an absent key. -/
def Cache : Type := String → Option Cart

/-- Cache with no entries. -/
def emptyCache : Cache := fun _ => none

/-- Helper `getCartKey(userId)` returning the cache key
`cart:user:<userId>`. -/
def getCartKey (userId : String) : String :=
  "cart:user:" ++ userId

/-- Total computation used by both cart-mutating routes:
`cart.items.reduce((sum, item) => sum + item.price * item.quantity, 0)`. -/
def computeTotal (items : List CartItem) : Int :=
  items.foldl (fun sum it => sum + it.price * it.quantity) 0

/-- Decimal value of a list of digit characters. -/
def digitsVal (cs : List Char) : Nat :=
  cs.foldl (fun a c => a * 10 + (c.toNat - 48)) 0

/-- Model of JavaScript `parseInt` in radix 10: skip leading whitespace,
read an optional sign, then a maximal run of decimal digits; `none`
models the `NaN` result when no digit is found. -/
def parseIntJS (s : String) : Option Int :=
  let cs := s.toList.dropWhile fun c => c = ' ' || c = '\t' || c = '\n' || c = '\r'
  match cs with
  | '-' :: r =>
      let ds := r.takeWhile Char.isDigit
      if ds.isEmpty then none else some (-(digitsVal ds : Int))
  | '+' :: r =>
      let ds := r.takeWhile Char.isDigit
      if ds.isEmpty then none else some (digitsVal ds : Int)
  | r =>
      let ds := r.takeWhile Char.isDigit
      if ds.isEmpty then none else some (digitsVal ds : Int)

/-- The update route's comparison `item.itemId === parseInt(req.params.itemId)`:
when parsing yielded `NaN` (`none`) the strict equality is false for every
item; otherwise it holds exactly for a numeric `itemId` with that value. -/
def matchesParsedId (pid : Option Int) (it : CartItem) : Bool :=
  match pid with
  | some n => it.itemId == JVal.num n
  | none => false

/-- Replace the first element satisfying `p` by its image under `f`
(the effect of mutating the element at `findIndex`). -/
def updateFirstBy {α : Type} (p : α → Bool) (f : α → α) : List α → List α
  | [] => []
  | a :: rest => if p a then f a :: rest else a :: updateFirstBy p f rest

/-- Remove the first element satisfying `p`
(the effect of `splice(findIndex, 1)`). -/
def removeFirstBy {α : Type} (p : α → Bool) : List α → List α
  | [] => []
  | a :: rest => if p a then rest else a :: removeFirstBy p rest

/-- Route GET `/api/cart/:userId`: the stored cart, or the empty cart on
a cache miss. -/
def getCart (cache : Cache) (userId : String) : Cart :=
  (cache (getCartKey userId)).getD emptyCart

/-- Route POST `/api/cart/:userId/items`: load the cart (or empty), merge
the body item — increment quantity at the first index whose `itemId` is
strictly equal to the body's `itemId`, else push a new item — recompute
the total, persist, and return the updated cart. -/
def addItem (cache : Cache) (userId : String) (itemId : JVal) (itemName : String)
    (price quantity : Int) : Cart × Cache :=
  let cartKey := getCartKey userId
  let cart := (cache cartKey).getD emptyCart
  let items :=
    if cart.items.any (fun it => it.itemId == itemId) then
      updateFirstBy (fun it => it.itemId == itemId)
        (fun it => { it with quantity := it.quantity + quantity }) cart.items
    else
      cart.items ++ [⟨itemId, itemName, price, quantity⟩]
  let newCart : Cart := ⟨items, computeTotal items⟩
  (newCart, fun k => if k = cartKey then some newCart else cache k)

/-- Errors of the update-quantity route; both answer HTTP 404. -/
inductive CartUpdateError where
  | cartNotFound
  | itemNotFound
deriving DecidableEq, Repr

/-- HTTP status sent for each update-quantity error. -/
def cartUpdateErrorStatus : CartUpdateError → Nat
  | .cartNotFound => 404
  | .itemNotFound => 404

/-- Route PUT `/api/cart/:userId/items/:itemId`: 404 if no cart is stored
or no item matches `parseInt` of the path parameter; otherwise remove the
matched item when the body quantity is ≤ 0, else overwrite its quantity;
recompute the total and persist.  The returned cache is the (possibly
unchanged) store after the request. -/
def updateItemQuantity (cache : Cache) (userId itemIdStr : String) (quantity : Int) :
    Except CartUpdateError Cart × Cache :=
  let cartKey := getCartKey userId
  match cache cartKey with
  | none => (.error .cartNotFound, cache)
  | some cart =>
    let pid := parseIntJS itemIdStr
    if cart.items.any (matchesParsedId pid) then
      let items :=
        if quantity ≤ 0 then removeFirstBy (matchesParsedId pid) cart.items
        else updateFirstBy (matchesParsedId pid)
          (fun it => { it with quantity := quantity }) cart.items
      let newCart : Cart := ⟨items, computeTotal items⟩
      (.ok newCart, fun k => if k = cartKey then some newCart else cache k)
    else
      (.error .itemNotFound, cache)

/-- Route DELETE `/api/cart/:userId`: unconditionally delete the key. -/
def clearCart (cache : Cache) (userId : String) : Cache :=
  fun k => if k = getCartKey userId then none else cache k

/-- First matching quantity: `find?` composed with the quantity
projection, the observable used to state the cart-merge properties. -/
def findQty (items : List CartItem) (p : CartItem → Bool) : Option Int :=
  (items.find? p).map (·.quantity)

/-- A durable order document as built by the place-order route.  `oid` is
the document-store identifier assigned at insertion; `userId` is
`parseInt` of the request's user id (`none` for `NaN`). -/
structure Order where
  oid : String
  userId : Option Int
  items : List CartItem
  totalAmount : Int
  deliveryAddress : String
  notes : String
  paymentMethod : String
  status : String
  createdAt : Int
  updatedAt : Int
deriving DecidableEq, Repr

/-- Combined state of the two backing stores. -/
structure OrderState where
  cache : Cache
  orders : List Order

/-- JavaScript falsiness of an optional string field: absent (`undefined`)
or the empty string. -/
def isFalsyOpt : Option String → Bool
  | none => true
  | some s => s.isEmpty

/-- Defaulting `x || d` for optional string fields. -/
def strOrDefault (o : Option String) (d : String) : String :=
  match o with
  | none => d
  | some s => if s.isEmpty then d else s

/-- Fresh document identifier assigned by the store at insertion:
an injective supply of 24-character lowercase hex strings. -/
def freshOid (orders : List Order) : String :=
  let ds := Nat.toDigits 16 orders.length
  String.mk (List.replicate (24 - ds.length) '0' ++ ds)

/-- Hexadecimal digit test. -/
def isHexChar (c : Char) : Bool :=
  c.isDigit || ('a' ≤ c && c ≤ 'f') || ('A' ≤ c && c ≤ 'F')

/-- Well-formedness check performed by the `ObjectId` constructor: a
24-character hexadecimal string.  On any other string the constructor
throws, which the routes' catch-alls turn into HTTP 500. -/
def isValidObjectId (s : String) : Bool :=
  s.length == 24 && s.toList.all isHexChar

/-- Errors of the place-order route: the two 400 validations and the
catch-all 500 raised when the document-store insert throws. -/
inductive PlaceOrderError where
  | invalidInput
  | emptyCart
  | storeFailure
deriving DecidableEq, Repr

/-- HTTP status sent for each place-order error. -/
def placeOrderErrorStatus : PlaceOrderError → Nat
  | .invalidInput => 400
  | .emptyCart => 400
  | .storeFailure => 500

/-- Route POST `/api/orders`: validate `userId`/`deliveryAddress`
(falsy ⇒ 400), load the cart (absent or zero items ⇒ 400), build the
order snapshot (status `pending`, `notes` defaulted to the empty string,
`paymentMethod` defaulted to `cash`, both timestamps `now`), insert it
into the document store, and only then delete the cart key.  `insertOk`
models whether the insert succeeds; when it throws the handler answers
500 before the cart delete is reached, leaving both stores unchanged. -/
def placeOrder (st : OrderState) (insertOk : Bool) (now : Int)
    (userId deliveryAddress notes paymentMethod : Option String) :
    Except PlaceOrderError Order × OrderState :=
  if isFalsyOpt userId || isFalsyOpt deliveryAddress then
    (.error .invalidInput, st)
  else
    let uid := (userId.getD "")
    let cartKey := getCartKey uid
    match st.cache cartKey with
    | none => (.error .emptyCart, st)
    | some cart =>
      if cart.items.isEmpty then
        (.error .emptyCart, st)
      else
        let order : Order :=
          { oid := freshOid st.orders
            userId := parseIntJS uid
            items := cart.items
            totalAmount := cart.total
            deliveryAddress := deliveryAddress.getD ""
            notes := strOrDefault notes ""
            paymentMethod := strOrDefault paymentMethod "cash"
            status := "pending"
            createdAt := now
            updatedAt := now }
        if insertOk then
          (.ok order,
            { cache := fun k => if k = cartKey then none else st.cache k
              orders := st.orders ++ [order] })
        else
          (.error .storeFailure, st)

/-- Errors of the get-order route: 404 when the (well-formed) identifier
matches no document, 500 when the `ObjectId` constructor throws. -/
inductive OrderLookupError where
  | notFound
  | storeFailure
deriving DecidableEq, Repr

/-- HTTP status sent for each get-order error. -/
def orderLookupErrorStatus : OrderLookupError → Nat
  | .notFound => 404
  | .storeFailure => 500

/-- Route GET `/api/orders/:orderId`: construct the `ObjectId` (throwing
on a malformed string, caught as 500), then `findOne`; 404 when no
document matches. -/
def getOrder (orders : List Order) (orderId : String) :
    Except OrderLookupError Order :=
  if isValidObjectId orderId then
    match orders.find? (fun o => o.oid == orderId) with
    | some o => .ok o
    | none => .error .notFound
  else
    .error .storeFailure

/-- The fixed status enum of the update-status route. -/
def validStatuses : List String :=
  ["pending", "confirmed", "preparing", "out_for_delivery", "delivered", "cancelled"]

/-- Errors of the update-status route: 400 on a status outside the enum,
404 when no document matches, 500 when the `ObjectId` constructor
throws. -/
inductive StatusUpdateError where
  | invalidStatus
  | notFound
  | storeFailure
deriving DecidableEq, Repr

/-- HTTP status sent for each update-status error. -/
def statusUpdateErrorStatus : StatusUpdateError → Nat
  | .invalidStatus => 400
  | .notFound => 404
  | .storeFailure => 500

/-- Route PUT `/api/orders/:orderId/status`: reject a status outside the
enum before touching the store; then construct the `ObjectId` (throwing
on a malformed string, caught as 500) and `updateOne`, setting `status`
and `updatedAt` on the matched document; 404 when nothing matched. -/
def updateOrderStatus (orders : List Order) (orderId status : String) (now : Int) :
    Except StatusUpdateError (List Order) :=
  if validStatuses.contains status then
    if isValidObjectId orderId then
      if orders.any (fun o => o.oid == orderId) then
        .ok (updateFirstBy (fun o => o.oid == orderId)
          (fun o => { o with status := status, updatedAt := now }) orders)
      else
        .error .notFound
    else
      .error .storeFailure
  else
    .error .invalidStatus

/-! ### Helper lemmas -/

lemma foldl_add_shift (f : CartItem → Int) :
    ∀ (l : List CartItem) (a : Int),
      l.foldl (fun s it => s + f it) a = a + (l.map f).sum := by
  intro l
  induction l with
  | nil => intro a; simp
  | cons x t ih =>
    intro a
    simp only [List.foldl_cons, List.map_cons, List.sum_cons, ih]
    ring

lemma computeTotal_eq_sum (items : List CartItem) :
    computeTotal items = (items.map fun it => it.price * it.quantity).sum := by
  simpa using foldl_add_shift (fun it => it.price * it.quantity) items 0

lemma find?_updateFirstBy {α : Type} (p : α → Bool) (f : α → α)
    (hpf : ∀ a, p a = true → p (f a) = true) :
    ∀ l : List α, l.any p = true →
      (updateFirstBy p f l).find? p = (l.find? p).map f := by
  intro l
  induction l with
  | nil => intro h; simp at h
  | cons a t ih =>
    intro h
    by_cases ha : p a = true
    · simp [updateFirstBy, ha, List.find?_cons_of_pos, hpf a ha]
    · have ha' : p a = false := by simpa using ha
      have ht : t.any p = true := by
        simpa [List.any_cons, ha'] using h
      simp [updateFirstBy, ha', List.find?_cons_of_neg, ih ht]

lemma length_updateFirstBy {α : Type} (p : α → Bool) (f : α → α) :
    ∀ l : List α, (updateFirstBy p f l).length = l.length := by
  intro l
  induction l with
  | nil => rfl
  | cons a t ih =>
    by_cases ha : p a = true
    · simp [updateFirstBy, ha]
    · simp [updateFirstBy, ha, ih]

lemma mem_updateFirstBy_of_not {α : Type} (p : α → Bool) (f : α → α) :
    ∀ (l : List α) (a : α), a ∈ l → p a = false → a ∈ updateFirstBy p f l := by
  intro l
  induction l with
  | nil => intro a ha; simp at ha
  | cons x t ih =>
    intro a ha hpa
    by_cases hx : p x = true
    · rcases List.mem_cons.mp ha with h | h
      · subst h; rw [hx] at hpa; exact absurd hpa (by simp)
      · simp [updateFirstBy, hx, List.mem_cons, Or.inr h]
    · have hx' : p x = false := by simpa using hx
      rcases List.mem_cons.mp ha with h | h
      · subst h; simp [updateFirstBy, hx']
      · simp [updateFirstBy, hx', List.mem_cons, Or.inr (ih a h hpa)]

lemma length_removeFirstBy {α : Type} (p : α → Bool) :
    ∀ l : List α, l.any p = true → (removeFirstBy p l).length + 1 = l.length := by
  intro l
  induction l with
  | nil => intro h; simp at h
  | cons a t ih =>
    intro h
    by_cases ha : p a = true
    · simp [removeFirstBy, ha]
    · have ha' : p a = false := by simpa using ha
      have ht : t.any p = true := by simpa [List.any_cons, ha'] using h
      simp [removeFirstBy, ha', ih ht]

lemma mem_removeFirstBy_of_not {α : Type} (p : α → Bool) :
    ∀ (l : List α) (a : α), a ∈ l → p a = false → a ∈ removeFirstBy p l := by
  intro l
  induction l with
  | nil => intro a ha; simp at ha
  | cons x t ih =>
    intro a ha hpa
    by_cases hx : p x = true
    · rcases List.mem_cons.mp ha with h | h
      · subst h; rw [hx] at hpa; exact absurd hpa (by simp)
      · simpa [removeFirstBy, hx] using h
    · have hx' : p x = false := by simpa using hx
      rcases List.mem_cons.mp ha with h | h
      · subst h; simp [removeFirstBy, hx']
      · simp [removeFirstBy, hx', List.mem_cons, Or.inr (ih a h hpa)]

lemma find?_removeFirstBy_none (p : CartItem → Bool) (key : JVal)
    (hkey : ∀ it, p it = true → it.itemId = key) :
    ∀ l : List CartItem, (l.map (·.itemId)).Nodup →
      (removeFirstBy p l).find? p = none := by
  intro l
  induction l with
  | nil => intro _; rfl
  | cons a t ih =>
    intro hnd
    rw [List.map_cons, List.nodup_cons] at hnd
    by_cases ha : p a = true
    · rw [removeFirstBy, if_pos ha]
      rw [List.find?_eq_none]
      intro b hb hpb
      have hb' : b.itemId = key := hkey b (by simpa using hpb)
      have ha' : a.itemId = key := hkey a ha
      exact hnd.1 (by rw [ha', ← hb']; exact List.mem_map_of_mem _ hb)
    · have ha' : p a = false := by simpa using ha
      rw [removeFirstBy, if_neg (by simp [ha'])]
      rw [List.find?_cons_of_neg _ (by simp [ha'])]
      exact ih hnd.2

lemma find?_append_of_none {α : Type} (p : α → Bool) :
    ∀ l l' : List α, l.find? p = none → (l ++ l').find? p = l'.find? p := by
  intro l
  induction l with
  | nil => intro l' _; rfl
  | cons a t ih =>
    intro l' h
    have ha : p a = false := by
      by_contra hpa
      rw [List.find?_cons_of_pos _ (by simpa using hpa)] at h
      exact Option.some_ne_none a h
    rw [List.find?_cons_of_neg _ (by simp [ha])] at h
    rw [List.cons_append, List.find?_cons_of_neg _ (by simp [ha])]
    exact ih l' h

/-- C1: every cart returned and persisted by the add-item and
update-quantity routes has `total` equal to Σ price·quantity over its
`items` (the total is recomputed from the items, never set
independently), and the persisted cart is exactly the returned one. -/
theorem cart_total_invariant (cache : Cache) (uid : String) (iid : JVal)
    (nm : String) (p q : Int) (itemIdStr : String) (q2 : Int) :
    ((addItem cache uid iid nm p q).1.total
        = ((addItem cache uid iid nm p q).1.items.map fun it => it.price * it.quantity).sum ∧
      (addItem cache uid iid nm p q).2 (getCartKey uid) = some (addItem cache uid iid nm p q).1) ∧
    (∀ c, (updateItemQuantity cache uid itemIdStr q2).1 = .ok c →
      c.total = (c.items.map fun it => it.price * it.quantity).sum ∧
      (updateItemQuantity cache uid itemIdStr q2).2 (getCartKey uid) = some c) := by
  constructor
  · constructor
    · simp only [addItem, computeTotal_eq_sum]
    · simp [addItem]
  · intro c hok
    cases hcl : cache (getCartKey uid) with
    | none =>
      simp only [updateItemQuantity, hcl] at hok
      exact absurd hok (by simp)
    | some cart =>
      by_cases hany : cart.items.any (matchesParsedId (parseIntJS itemIdStr)) = true
      · simp only [updateItemQuantity, hcl, hany, if_true] at hok ⊢
        rw [Except.ok.injEq] at hok
        subst hok
        exact ⟨computeTotal_eq_sum _, by simp⟩
      · have hany' : cart.items.any (matchesParsedId (parseIntJS itemIdStr)) = false := by
          simpa using hany
        simp only [updateItemQuantity, hcl, hany'] at hok
        simp at hok

/-- Example cache: the store after adding item 1 ("Pizza", price 10,
quantity 2) to user "u"'s cart. -/
def exCache1 : Cache := (addItem emptyCache "u" (JVal.num 1) "Pizza" 10 2).2

/-- C1 witness: the invariant instantiated on a concrete one-item cart
and a successful quantity update to 7. -/
theorem cart_total_invariant_witness :
    (updateItemQuantity exCache1 "u" "1" 7).1
      = .ok ⟨[⟨JVal.num 1, "Pizza", 10, 7⟩], 70⟩ ∧
    ((⟨[⟨JVal.num 1, "Pizza", 10, 7⟩], 70⟩ : Cart).total
      = ((⟨[⟨JVal.num 1, "Pizza", 10, 7⟩], 70⟩ : Cart).items.map
          fun it => it.price * it.quantity).sum ∧
      (updateItemQuantity exCache1 "u" "1" 7).2 (getCartKey "u")
        = some ⟨[⟨JVal.num 1, "Pizza", 10, 7⟩], 70⟩) :=
  ⟨rfl, (cart_total_invariant exCache1 "u" (JVal.num 1) "x" 0 0 "1" 7).2
    ⟨[⟨JVal.num 1, "Pizza", 10, 7⟩], 70⟩ rfl⟩

/-- C3: effect of the add-item route on an arbitrary starting cart: the
first item strictly equal to the body `itemId` has its quantity
incremented by the given amount (with increment over 0 — i.e. insertion
of the item — when none matched, regardless of the sign of the quantity),
items with other ids are kept, the item count grows exactly on a fresh
id, the total is recomputed as Σ price·quantity, and the result is
persisted under the user's key. -/
theorem addItem_merge_spec (cache : Cache) (uid : String) (iid : JVal)
    (nm : String) (p q : Int) :
    findQty (addItem cache uid iid nm p q).1.items (fun it => it.itemId == iid)
      = some ((findQty (getCart cache uid).items (fun it => it.itemId == iid)).getD 0 + q) ∧
    (∀ it ∈ (getCart cache uid).items, (it.itemId == iid) = false →
        it ∈ (addItem cache uid iid nm p q).1.items) ∧
    ((addItem cache uid iid nm p q).1.items.length
      = if (getCart cache uid).items.any (fun it => it.itemId == iid) = true then
          (getCart cache uid).items.length else (getCart cache uid).items.length + 1) ∧
    (addItem cache uid iid nm p q).1.total
      = ((addItem cache uid iid nm p q).1.items.map fun it => it.price * it.quantity).sum ∧
    (addItem cache uid iid nm p q).2 (getCartKey uid) = some (addItem cache uid iid nm p q).1 := by
  simp only [addItem, getCart, findQty]
  by_cases hany :
      ((cache (getCartKey uid)).getD emptyCart).items.any (fun it => it.itemId == iid) = true
  · simp only [hany, if_true]
    have hfu := find?_updateFirstBy (fun it => it.itemId == iid)
      (fun it => { it with quantity := it.quantity + q }) (fun a ha => ha)
      ((cache (getCartKey uid)).getD emptyCart).items hany
    refine ⟨?_, ?_, ?_, computeTotal_eq_sum _, by simp⟩
    · rw [hfu]
      cases hfind : ((cache (getCartKey uid)).getD emptyCart).items.find?
          (fun it => it.itemId == iid) with
      | none =>
        rw [List.find?_eq_none] at hfind
        rw [List.any_eq_true] at hany
        obtain ⟨x, hx, hpx⟩ := hany
        exact absurd hpx (hfind x hx)
      | some it0 => simp
    · intro it hmem hne
      exact mem_updateFirstBy_of_not _ _ _ it hmem hne
    · exact length_updateFirstBy _ _ _
  · have hany' :
        ((cache (getCartKey uid)).getD emptyCart).items.any (fun it => it.itemId == iid) = false := by
      simpa using hany
    have hnone :
        ((cache (getCartKey uid)).getD emptyCart).items.find? (fun it => it.itemId == iid) = none := by
      rw [List.find?_eq_none]
      intro x hx
      simp only [List.any_eq_false] at hany'
      exact hany' x hx
    simp only [hany', Bool.false_eq_true, if_false]
    refine ⟨?_, ?_, by simp, computeTotal_eq_sum _, by simp⟩
    · rw [find?_append_of_none _ _ _ hnone, hnone]
      simp [List.find?_cons]
    · intro it hmem _
      exact List.mem_append_left _ hmem

/-- Example cache: user "u"'s cart holding item 1 ("Pizza", 10, qty 2)
and item 2 ("Soda", 4, qty 1). -/
def exCache2 : Cache := (addItem exCache1 "u" (JVal.num 2) "Soda" 4 1).2

/-- C3 witness: adding quantity 3 to the already-present item 1 (qty 2)
yields quantity 5 while item 2 survives, and a first insertion with
negative quantity -5 succeeds and is stored as such. -/
theorem addItem_merge_spec_witness :
    findQty (addItem exCache2 "u" (JVal.num 1) "Pizza" 10 3).1.items
        (fun it => it.itemId == JVal.num 1) = some 5 ∧
    (⟨JVal.num 2, "Soda", 4, 1⟩ : CartItem)
      ∈ (addItem exCache2 "u" (JVal.num 1) "Pizza" 10 3).1.items ∧
    findQty (addItem emptyCache "v" (JVal.num 2) "Soda" 4 (-5)).1.items
        (fun it => it.itemId == JVal.num 2) = some (-5) :=
  ⟨(addItem_merge_spec exCache2 "u" (JVal.num 1) "Pizza" 10 3).1,
   (addItem_merge_spec exCache2 "u" (JVal.num 1) "Pizza" 10 3).2.1
     ⟨JVal.num 2, "Soda", 4, 1⟩ (by decide) (by decide),
   (addItem_merge_spec emptyCache "v" (JVal.num 2) "Soda" 4 (-5)).1⟩

/-- C6: on a stored cart with duplicate-free item ids containing an item
matching the parsed path id, the update route succeeds; quantity ≤ 0
removes the matched item (no item matches afterwards, length drops by
one), quantity > 0 overwrites its quantity; other items survive, the
total is recomputed as Σ price·quantity, and the result is persisted. -/
theorem updateItemQuantity_spec (cache : Cache) (uid itemIdStr : String) (q : Int)
    (cart : Cart) (hc : cache (getCartKey uid) = some cart)
    (hnd : (cart.items.map (·.itemId)).Nodup)
    (hin : cart.items.any (matchesParsedId (parseIntJS itemIdStr)) = true) :
    ∃ c, (updateItemQuantity cache uid itemIdStr q).1 = .ok c ∧
      (q ≤ 0 → findQty c.items (matchesParsedId (parseIntJS itemIdStr)) = none ∧
        c.items.length + 1 = cart.items.length) ∧
      (0 < q → findQty c.items (matchesParsedId (parseIntJS itemIdStr)) = some q ∧
        c.items.length = cart.items.length) ∧
      (∀ it ∈ cart.items, matchesParsedId (parseIntJS itemIdStr) it = false → it ∈ c.items) ∧
      c.total = (c.items.map fun it => it.price * it.quantity).sum ∧
      (updateItemQuantity cache uid itemIdStr q).2 (getCartKey uid) = some c := by
  cases hpid : parseIntJS itemIdStr with
  | none =>
    exfalso
    rw [hpid, List.any_eq_true] at hin
    obtain ⟨x, _, hpx⟩ := hin
    simp [matchesParsedId] at hpx
  | some n =>
    rw [hpid] at hin
    simp only [updateItemQuantity, hc, hpid, hin, if_true]
    by_cases hq : q ≤ 0
    · rw [if_pos hq]
      refine ⟨_, rfl, fun _ => ⟨?_, ?_⟩, fun h0 => absurd h0 (by omega), ?_, computeTotal_eq_sum _, by simp⟩
      · unfold findQty
        rw [find?_removeFirstBy_none (matchesParsedId (some n)) (JVal.num n) ?_ cart.items hnd]
        · rfl
        · intro it hit
          simpa [matchesParsedId] using hit
      · exact length_removeFirstBy _ _ hin
      · intro it hmem hne
        exact mem_removeFirstBy_of_not _ _ it hmem hne
    · rw [if_neg hq]
      refine ⟨_, rfl, fun h0 => absurd h0 (by omega), fun _ => ⟨?_, ?_⟩, ?_, computeTotal_eq_sum _, by simp⟩
      · unfold findQty
        rw [find?_updateFirstBy (matchesParsedId (some n))
          (fun it => { it with quantity := q }) (fun a ha => ha) cart.items hin]
        cases hfind : cart.items.find? (matchesParsedId (some n)) with
        | none =>
          rw [List.find?_eq_none] at hfind
          rw [List.any_eq_true] at hin
          obtain ⟨x, hx, hpx⟩ := hin
          exact absurd hpx (hfind x hx)
        | some it0 => simp
      · exact length_updateFirstBy _ _ _
      · intro it hmem hne
        exact mem_updateFirstBy_of_not _ _ _ it hmem hne

/-- The concrete two-item cart stored in `exCache2`. -/
def exCart2 : Cart :=
  ⟨[⟨JVal.num 1, "Pizza", 10, 2⟩, ⟨JVal.num 2, "Soda", 4, 1⟩], 24⟩

/-- C6 witness: setting item 1's quantity to 0 on the two-item cart
removes it; the remaining item is Soda and the store is re-persisted. -/
theorem updateItemQuantity_spec_witness :
    ∃ c, (updateItemQuantity exCache2 "u" "1" 0).1 = .ok c ∧
      ((0 : Int) ≤ 0 → findQty c.items (matchesParsedId (parseIntJS "1")) = none ∧
        c.items.length + 1 = exCart2.items.length) ∧
      ((0 : Int) < 0 → findQty c.items (matchesParsedId (parseIntJS "1")) = some 0 ∧
        c.items.length = exCart2.items.length) ∧
      (∀ it ∈ exCart2.items, matchesParsedId (parseIntJS "1") it = false → it ∈ c.items) ∧
      c.total = (c.items.map fun it => it.price * it.quantity).sum ∧
      (updateItemQuantity exCache2 "u" "1" 0).2 (getCartKey "u") = some c :=
  updateItemQuantity_spec exCache2 "u" "1" 0 exCart2 rfl (by decide) (by decide)

/-- C7: the update route answers an error exactly when no cart is stored
for the user or no stored item matches the parsed path id; every such
error carries HTTP 404 and leaves the cache exactly as it was. -/
theorem updateItemQuantity_notFound_iff (cache : Cache) (uid itemIdStr : String) (q : Int) :
    ((∃ e, (updateItemQuantity cache uid itemIdStr q).1 = .error e) ↔
      (cache (getCartKey uid) = none ∨
        ∃ cart, cache (getCartKey uid) = some cart ∧
          cart.items.any (matchesParsedId (parseIntJS itemIdStr)) = false)) ∧
    (∀ e, (updateItemQuantity cache uid itemIdStr q).1 = .error e →
      cartUpdateErrorStatus e = 404 ∧
      (updateItemQuantity cache uid itemIdStr q).2 = cache) := by
  cases hcl : cache (getCartKey uid) with
  | none =>
    constructor
    · simp [updateItemQuantity, hcl]
    · intro e he
      cases e <;> simp [updateItemQuantity, hcl, cartUpdateErrorStatus]
  | some cart =>
    by_cases hany : cart.items.any (matchesParsedId (parseIntJS itemIdStr)) = true
    · constructor
      · simp [updateItemQuantity, hcl, hany]
        exact List.any_eq_true.mp hany
      · intro e he
        simp [updateItemQuantity, hcl, hany] at he
    · have hany' : cart.items.any (matchesParsedId (parseIntJS itemIdStr)) = false := by
        simpa using hany
      constructor
      · simp [updateItemQuantity, hcl, hany']
        intro x hx
        simpa using (List.any_eq_false.mp hany') x hx
      · intro e he
        cases e <;> simp [updateItemQuantity, hcl, hany', cartUpdateErrorStatus]

/-- C7 witness: the iff and the 404/unchanged-store consequence
instantiated on a store whose cart lacks item 9. -/
theorem updateItemQuantity_notFound_iff_witness :
    (((∃ e, (updateItemQuantity exCache2 "u" "9" 3).1 = .error e) ↔
      (exCache2 (getCartKey "u") = none ∨
        ∃ cart, exCache2 (getCartKey "u") = some cart ∧
          cart.items.any (matchesParsedId (parseIntJS "9")) = false)) ∧
    (∀ e, (updateItemQuantity exCache2 "u" "9" 3).1 = .error e →
      cartUpdateErrorStatus e = 404 ∧
      (updateItemQuantity exCache2 "u" "9" 3).2 = exCache2)) ∧
    (updateItemQuantity exCache2 "u" "9" 3).1 = .error .itemNotFound :=
  ⟨updateItemQuantity_notFound_iff exCache2 "u" "9" 3, rfl⟩

/-- Example cache: user "w"'s cart holding one item whose id is the JSON
string "1" (stored unconverted by the add-item route). -/
def exCacheStr : Cache := (addItem emptyCache "w" (JVal.str "1") "Pizza" 10 2).2

/-- C10: when every stored item id is a string, the update route can
never match — `parseInt` of the path parameter is a number (or `NaN`)
and strict equality never crosses types — so it answers 404
item-not-found and leaves the cache unchanged, whatever path id and
quantity the client sends. -/
theorem updateItemQuantity_string_id_notFound (cache : Cache) (uid itemIdStr : String)
    (q : Int) (cart : Cart) (hc : cache (getCartKey uid) = some cart)
    (hstr : ∀ it ∈ cart.items, isStrVal it.itemId = true) :
    (updateItemQuantity cache uid itemIdStr q).1 = .error .itemNotFound ∧
    cartUpdateErrorStatus .itemNotFound = 404 ∧
    (updateItemQuantity cache uid itemIdStr q).2 = cache := by
  have hany : cart.items.any (matchesParsedId (parseIntJS itemIdStr)) = false := by
    rw [List.any_eq_false]
    intro it hit
    have hs := hstr it hit
    cases hp : parseIntJS itemIdStr with
    | none => simp [matchesParsedId]
    | some n =>
      simp only [matchesParsedId]
      cases hid : it.itemId with
      | num m => rw [hid] at hs; simp [isStrVal] at hs
      | str s => simp
  simp [updateItemQuantity, hc, hany, cartUpdateErrorStatus]

/-- C10 witness: item id stored as the string "1"; the update route
addressed with path id "1" fails 404 although the item is in the cart. -/
theorem updateItemQuantity_string_id_notFound_witness :
    (⟨JVal.str "1", "Pizza", 10, 2⟩ : CartItem) ∈ (getCart exCacheStr "w").items ∧
    ((updateItemQuantity exCacheStr "w" "1" 5).1 = .error .itemNotFound ∧
      cartUpdateErrorStatus .itemNotFound = 404 ∧
      (updateItemQuantity exCacheStr "w" "1" 5).2 = exCacheStr) :=
  ⟨by decide, updateItemQuantity_string_id_notFound exCacheStr "w" "1" 5
      ⟨[⟨JVal.str "1", "Pizza", 10, 2⟩], 20⟩ rfl (by decide)⟩

/-- C2: checkout hand-off on a valid request over a non-empty cart: when
the document-store insert fails the route answers 500 with both stores —
in particular the user's cart — exactly as they were (the cart delete is
only reached after a successful insert); when the insert succeeds the
order is returned and appended, and the user's subsequent `getCart` is
the empty cart. -/
theorem placeOrder_cart_handoff (cache : Cache) (orders : List Order) (now : Int)
    (s d : String) (notes pm : Option String)
    (hs : s.isEmpty = false) (hd : d.isEmpty = false)
    (cart : Cart) (hc : cache (getCartKey s) = some cart)
    (hne : cart.items.isEmpty = false) :
    ((placeOrder ⟨cache, orders⟩ false now (some s) (some d) notes pm).1 = .error .storeFailure ∧
      (placeOrder ⟨cache, orders⟩ false now (some s) (some d) notes pm).2 = ⟨cache, orders⟩) ∧
    (∃ o st', placeOrder ⟨cache, orders⟩ true now (some s) (some d) notes pm = (.ok o, st') ∧
      getCart st'.cache s = emptyCart ∧ st'.orders = orders ++ [o]) := by
  have hfalsy : (isFalsyOpt (some s) || isFalsyOpt (some d)) = false := by
    simp [isFalsyOpt, hs, hd]
  constructor
  · constructor
    · simp [placeOrder, hfalsy, hc, hne]
    · simp [placeOrder, hfalsy, hc, hne]
  · refine ⟨⟨freshOid orders, parseIntJS s, cart.items, cart.total, d,
      strOrDefault notes "", strOrDefault pm "cash", "pending", now, now⟩,
      ⟨fun k => if k = getCartKey s then none else cache k,
        orders ++ [⟨freshOid orders, parseIntJS s, cart.items, cart.total, d,
          strOrDefault notes "", strOrDefault pm "cash", "pending", now, now⟩]⟩,
      ?_, ?_, rfl⟩
    · simp [placeOrder, hfalsy, hc, hne]
    · simp [getCart, emptyCart]

/-- C2 witness: checkout of the two-item cart with a failing and a
succeeding insert. -/
theorem placeOrder_cart_handoff_witness :
    (((placeOrder ⟨exCache2, []⟩ false 0 (some "u") (some "123 Main St") none none).1
        = .error .storeFailure ∧
      (placeOrder ⟨exCache2, []⟩ false 0 (some "u") (some "123 Main St") none none).2
        = ⟨exCache2, []⟩) ∧
    (∃ o st', placeOrder ⟨exCache2, []⟩ true 0 (some "u") (some "123 Main St") none none
        = (.ok o, st') ∧
      getCart st'.cache "u" = emptyCart ∧ st'.orders = [] ++ [o])) :=
  placeOrder_cart_handoff exCache2 [] 0 "u" "123 Main St" none none rfl rfl
    exCart2 rfl rfl

/-- C8: the place-order route answers 400 invalid-input on a falsy
`userId` or `deliveryAddress`, and 400 empty-cart when — the inputs being
present — no cart is stored or the stored cart has no items; in each case
the order list and the cache are returned exactly as they were (no order
is created, the cart is untouched). -/
theorem placeOrder_validation (cache : Cache) (orders : List Order) (now : Int)
    (u da notes pm : Option String) (insertOk : Bool) :
    ((isFalsyOpt u || isFalsyOpt da) = true →
      placeOrder ⟨cache, orders⟩ insertOk now u da notes pm
        = (.error .invalidInput, ⟨cache, orders⟩)) ∧
    (∀ s, u = some s → (isFalsyOpt u || isFalsyOpt da) = false →
      (cache (getCartKey s) = none ∨
        (∃ cart, cache (getCartKey s) = some cart ∧ cart.items = [])) →
      placeOrder ⟨cache, orders⟩ insertOk now u da notes pm
        = (.error .emptyCart, ⟨cache, orders⟩)) ∧
    placeOrderErrorStatus .invalidInput = 400 ∧ placeOrderErrorStatus .emptyCart = 400 := by
  refine ⟨?_, ?_, rfl, rfl⟩
  · intro h
    simp [placeOrder, h]
  · intro s hu hf hcart
    subst hu
    rcases hcart with hnone | ⟨cart, hsome, hitems⟩
    · simp [placeOrder, hf, hnone]
    · simp [placeOrder, hf, hsome, hitems]

/-- C8 witness: a request without a delivery address fails 400 leaving
the stores untouched, and a request for a user with no stored cart fails
400 empty-cart likewise. -/
theorem placeOrder_validation_witness :
    placeOrder ⟨exCache2, []⟩ true 0 (some "u") none none none
      = (.error .invalidInput, ⟨exCache2, []⟩) ∧
    placeOrder ⟨exCache2, []⟩ true 0 (some "z") (some "123 Main St") none none
      = (.error .emptyCart, ⟨exCache2, []⟩) :=
  ⟨(placeOrder_validation exCache2 [] 0 (some "u") none none none true).1 rfl,
   (placeOrder_validation exCache2 [] 0 (some "z") (some "123 Main St") none none true).2.1
     "z" rfl rfl (Or.inl rfl)⟩

/-- C4: round-trip on a successful checkout: with valid inputs, a stored
non-empty cart, and a fresh store identifier, the place-order route
succeeds and the order fetched back by its identifier is exactly the
returned one, whose `items` and `totalAmount` are the cart snapshot,
with status `pending`, `notes` defaulted to the empty string and
`paymentMethod` defaulted to `cash` when absent. -/
theorem placeOrder_getOrder_roundtrip (cache : Cache) (orders : List Order) (now : Int)
    (s d : String) (hs : s.isEmpty = false) (hd : d.isEmpty = false)
    (cart : Cart) (hc : cache (getCartKey s) = some cart)
    (hne : cart.items.isEmpty = false)
    (hfresh : ∀ o ∈ orders, (o.oid == freshOid orders) = false)
    (hvalid : isValidObjectId (freshOid orders) = true) :
    ∃ o st', placeOrder ⟨cache, orders⟩ true now (some s) (some d) none none = (.ok o, st') ∧
      getOrder st'.orders o.oid = .ok o ∧
      o.items = cart.items ∧ o.totalAmount = cart.total ∧
      o.status = "pending" ∧ o.notes = "" ∧ o.paymentMethod = "cash" := by
  have hfalsy : (isFalsyOpt (some s) || isFalsyOpt (some d)) = false := by
    simp [isFalsyOpt, hs, hd]
  refine ⟨⟨freshOid orders, parseIntJS s, cart.items, cart.total, d,
      "", "cash", "pending", now, now⟩,
    ⟨fun k => if k = getCartKey s then none else cache k,
      orders ++ [⟨freshOid orders, parseIntJS s, cart.items, cart.total, d,
        "", "cash", "pending", now, now⟩]⟩,
    ?_, ?_, rfl, rfl, rfl, rfl, rfl⟩
  · simp [placeOrder, hfalsy, hc, hne, strOrDefault]
  · have hnone : orders.find?
        (fun o => o.oid == freshOid orders) = none := by
      rw [List.find?_eq_none]
      intro o ho
      simp [hfresh o ho]
    rw [getOrder, if_pos hvalid, find?_append_of_none _ _ _ hnone]
    rw [List.find?_cons_of_pos _ (by simp)]

/-- C4 witness: checkout of the concrete two-item cart into an empty
order store, fetched back by the assigned identifier. -/
theorem placeOrder_getOrder_roundtrip_witness :
    ∃ o st', placeOrder ⟨exCache2, []⟩ true 5 (some "u") (some "123 Main St") none none
        = (.ok o, st') ∧
      getOrder st'.orders o.oid = .ok o ∧
      o.items = exCart2.items ∧ o.totalAmount = exCart2.total ∧
      o.status = "pending" ∧ o.notes = "" ∧ o.paymentMethod = "cash" :=
  placeOrder_getOrder_roundtrip exCache2 [] 5 "u" "123 Main St" rfl rfl
    exCart2 rfl rfl (by simp) rfl

/-- C5 counterexample: on the malformed identifier "xyz" (which the
`ObjectId` constructor rejects, so `findOne` is never reached) the
get-order route answers 500 store-failure, not 404 not-found, although
no order with that identifier exists — the claim's "malformed identifier
⇒ NotFound" case fails on the code. -/
theorem getOrder_malformed_counterexample :
    (∀ o ∈ ([] : List Order), (o.oid == "xyz") = false) ∧
    getOrder [] "xyz" = .error .storeFailure ∧
    getOrder [] "xyz" ≠ .error .notFound ∧
    orderLookupErrorStatus .storeFailure = 500 ∧
    orderLookupErrorStatus .notFound = 404 := by
  refine ⟨by simp, rfl, ?_, rfl, rfl⟩
  intro h
  have h' := Except.error.inj h
  cases h'

/-- C5 amended: the get-order route answers 404 not-found exactly when
the identifier is a well-formed `ObjectId` string and no stored order
carries it; a malformed identifier instead surfaces as a 500
store-failure (the constructor throws inside the catch-all). -/
theorem getOrder_notFound_iff (orders : List Order) (orderId : String) :
    (getOrder orders orderId = .error .notFound ↔
      (isValidObjectId orderId = true ∧ ∀ o ∈ orders, (o.oid == orderId) = false)) ∧
    (isValidObjectId orderId = false → getOrder orders orderId = .error .storeFailure) ∧
    orderLookupErrorStatus .notFound = 404 ∧
    orderLookupErrorStatus .storeFailure = 500 := by
  by_cases hv : isValidObjectId orderId = true
  · refine ⟨?_, fun h => absurd hv (by simp [h]), rfl, rfl⟩
    rw [getOrder, if_pos hv]
    cases hf : orders.find? (fun o => o.oid == orderId) with
    | none =>
      constructor
      · intro _
        refine ⟨hv, fun o ho => ?_⟩
        simpa using (List.find?_eq_none.mp hf) o ho
      · intro _
        rfl
    | some o =>
      constructor
      · intro h
        exact absurd h (by simp)
      · rintro ⟨-, hall⟩
        have hp := List.find?_some hf
        have hmem := List.mem_of_find?_eq_some hf
        rw [hall o hmem] at hp
        cases hp
  · have hv' : isValidObjectId orderId = false := by simpa using hv
    refine ⟨?_, fun _ => by rw [getOrder, if_neg (by simp [hv'])], rfl, rfl⟩
    rw [getOrder, if_neg (by simp [hv'])]
    constructor
    · intro h
      have h' := Except.error.inj h
      cases h'
    · rintro ⟨hvt, -⟩
      rw [hv'] at hvt
      cases hvt

/-- C5 amended witness: the iff instantiated at a well-formed identifier
absent from an empty store (404) and the 500 branch at "xyz". -/
theorem getOrder_notFound_iff_witness :
    getOrder [] "aaaaaaaaaaaaaaaaaaaaaaaa" = .error .notFound ∧
    getOrder [] "xyz" = .error .storeFailure :=
  ⟨(getOrder_notFound_iff [] "aaaaaaaaaaaaaaaaaaaaaaaa").1.mpr ⟨rfl, by simp⟩,
   (getOrder_notFound_iff [] "xyz").2.1 rfl⟩

/-- C9 counterexample: with the valid status "confirmed" and the
malformed identifier "xyz" — for which no matching order exists in the
empty store — the update-status route answers 500 store-failure (the
`ObjectId` constructor throws inside the catch-all), not 404 not-found
as the claim's "no matching order ⇒ NotFound" case requires. -/
theorem updateOrderStatus_malformed_counterexample :
    validStatuses.contains "confirmed" = true ∧
    (∀ o ∈ ([] : List Order), (o.oid == "xyz") = false) ∧
    updateOrderStatus [] "xyz" "confirmed" 0 = .error .storeFailure ∧
    updateOrderStatus [] "xyz" "confirmed" 0 ≠ .error .notFound ∧
    statusUpdateErrorStatus .storeFailure = 500 ∧
    statusUpdateErrorStatus .notFound = 404 := by
  refine ⟨rfl, by simp, rfl, ?_, rfl, rfl⟩
  intro h
  have h' := Except.error.inj h
  cases h'

/-- C9 amended: a status outside the enum is rejected with 400 before
the store is touched (the store is returned unchanged by construction);
with a valid status, a well-formed identifier matching no order answers
404, a malformed identifier answers 500, and on a match the route
succeeds for every enum status whatever the order's current status —
setting `status` and `updatedAt` on the matched order, which is what a
subsequent get-order returns, with the store's size unchanged. -/
theorem updateOrderStatus_spec (orders : List Order) (orderId status : String) (now : Int) :
    (validStatuses.contains status = false →
      updateOrderStatus orders orderId status now = .error .invalidStatus ∧
      statusUpdateErrorStatus .invalidStatus = 400) ∧
    (validStatuses.contains status = true → isValidObjectId orderId = true →
      (∀ o ∈ orders, (o.oid == orderId) = false) →
      updateOrderStatus orders orderId status now = .error .notFound ∧
      statusUpdateErrorStatus .notFound = 404) ∧
    (validStatuses.contains status = true → isValidObjectId orderId = false →
      updateOrderStatus orders orderId status now = .error .storeFailure) ∧
    (∀ o, validStatuses.contains status = true → isValidObjectId orderId = true →
      orders.find? (fun x => x.oid == orderId) = some o →
      ∃ orders', updateOrderStatus orders orderId status now = .ok orders' ∧
        getOrder orders' orderId = .ok { o with status := status, updatedAt := now } ∧
        orders'.length = orders.length) := by
  refine ⟨?_, ?_, ?_, ?_⟩
  · intro h
    rw [updateOrderStatus, if_neg (by simpa using h)]
    exact ⟨rfl, rfl⟩
  · intro hs hv hall
    have hany : orders.any (fun o => o.oid == orderId) = false := by
      rw [List.any_eq_false]
      intro o ho
      simp [hall o ho]
    rw [updateOrderStatus, if_pos (by simpa using hs), if_pos hv,
      if_neg (by simp [hany])]
    exact ⟨rfl, rfl⟩
  · intro hs hv
    rw [updateOrderStatus, if_pos (by simpa using hs), if_neg (by simp [hv])]
  · intro o hs hv hf
    have hmem := List.mem_of_find?_eq_some hf
    have hp := List.find?_some hf
    have hany : orders.any (fun x => x.oid == orderId) = true :=
      List.any_eq_true.mpr ⟨o, hmem, hp⟩
    refine ⟨updateFirstBy (fun x => x.oid == orderId)
      (fun x => { x with status := status, updatedAt := now }) orders,
      ?_, ?_, length_updateFirstBy _ _ _⟩
    · rw [updateOrderStatus, if_pos (by simpa using hs), if_pos hv, if_pos (by simp [hany])]
    · rw [getOrder, if_pos hv]
      rw [find?_updateFirstBy (fun x => x.oid == orderId)
        (fun x => { x with status := status, updatedAt := now }) (fun a ha => ha) orders hany]
      rw [hf]
      rfl

/-- The order stored by the C9/C5 witnesses: a pending one-item order
under the first generated identifier. -/
def exOrder : Order :=
  ⟨freshOid [], some 7, [⟨JVal.num 1, "Pizza", 10, 2⟩], 20,
    "123 Main St", "", "cash", "pending", 0, 0⟩

/-- C9 amended witness: the 400 branch on status "bogus", and a
successful update of the stored pending order to "cancelled" with
`updatedAt` refreshed. -/
theorem updateOrderStatus_spec_witness :
    (updateOrderStatus [exOrder] "000000000000000000000000" "bogus" 9
        = .error .invalidStatus ∧
      statusUpdateErrorStatus .invalidStatus = 400) ∧
    (∃ orders', updateOrderStatus [exOrder] "000000000000000000000000" "cancelled" 9
        = .ok orders' ∧
      getOrder orders' "000000000000000000000000"
        = .ok { exOrder with status := "cancelled", updatedAt := 9 } ∧
      orders'.length = [exOrder].length) :=
  ⟨(updateOrderStatus_spec [exOrder] "000000000000000000000000" "bogus" 9).1 rfl,
   (updateOrderStatus_spec [exOrder] "000000000000000000000000" "cancelled" 9).2.2.2
     exOrder rfl rfl rfl⟩
